import Mathlib

/-!
Shallow embedding of the ratatui system monitor (src/main.rs) and proofs of
the specification's claims about it.

The program has three threads:
  - the memory sampler (`handle_input_events` in the source, despite its
    name): loops reading free memory, sending `Event::Memory`, sleeping 500 ms;
  - the input listener (`handle_key_events` in the source): performs one
    blocking terminal read, forwards a key event as `Event::Input` with
    `.unwrap()` on the send, then the thread ends;
  - the run loop (`App::run`): while `running`, drains the channel inside
    `App::render`, folds each event into the state, paints, sleeps 100 ms.

The pure state machine (the `App` struct and its event fold), the paint step
and both producers' control flow are embedded below; channel delivery is
modelled by the list of events a drain returns, and each producer's
interaction with the outside world (terminal reads, memory readings, the
result of each channel send) by explicit input lists.
-/

/-- Modifier flags of a key event (crossterm `KeyModifiers` bitflags:
SHIFT, CONTROL, ALT, SUPER, HYPER, META), modelled as six booleans.
The program never inspects them (`App::on_key_event` matches them with `_`). -/
structure KeyModifiers where
  shift : Bool
  control : Bool
  alt : Bool
  superMod : Bool
  hyperMod : Bool
  metaMod : Bool
deriving DecidableEq

/-- The empty modifier set. -/
def noMods : KeyModifiers := ⟨false, false, false, false, false, false⟩

/-- Modifier set with only CONTROL held. -/
def ctrlMod : KeyModifiers := ⟨false, true, false, false, false, false⟩

/-- Key codes (representative subset of crossterm `KeyCode`; the program only
distinguishes `Esc`, `Char('q')` and everything else). -/
inductive KeyCode where
  | Esc : KeyCode
  | Char : Char → KeyCode
  | Enter : KeyCode
  | Backspace : KeyCode
  | Tab : KeyCode
  | Left : KeyCode
  | Right : KeyCode
  | Up : KeyCode
  | Down : KeyCode
  | F : Nat → KeyCode
  | Null : KeyCode
deriving DecidableEq

/-- A key press event: crossterm `KeyEvent`. The `kind` and `state` fields of
the Rust struct are never read by the program and are omitted. -/
structure KeyEvent where
  code : KeyCode
  modifiers : KeyModifiers
deriving DecidableEq

/-- The channel event type (`enum Event` in src/main.rs):
`Input(KeyEvent)` from the input listener, `Memory(u64)` from the sampler
(the u64 free-memory reading is modelled as a `Nat`; it is only stored and
displayed, never computed with). -/
inductive Event where
  | Input : KeyEvent → Event
  | Memory : Nat → Event
deriving DecidableEq

/-- The application state (`struct App`): the running flag and the latest
memory sample, if any. -/
structure App where
  running : Bool
  latest_mem : Option Nat
deriving DecidableEq

namespace App

/-- `App::new`: running is true, no sample yet. -/
def new : App := { running := true, latest_mem := none }

/-- `App::quit`: set running to false. -/
def quit (s : App) : App := { s with running := false }

/-- `App::on_key_event` (src/main.rs lines 114-118): the quit predicate.
The Rust is a single `if let` matching `(key.modifiers, key.code)` against
`(_, KeyCode::Esc | KeyCode::Char('q'))` and calling `self.quit()` on match. -/
def on_key_event (s : App) (key : KeyEvent) : App :=
  match (key.modifiers, key.code) with
  | (_, KeyCode.Esc) => s.quit
  | (_, KeyCode.Char 'q') => s.quit
  | _ => s

/-- One iteration of the drain loop at the top of `App::render`
(src/main.rs lines 86-91): fold a single drained event into the state. -/
def applyEvent (s : App) (e : Event) : App :=
  match e with
  | Event.Memory mem => { s with latest_mem := some mem }
  | Event.Input key_event => s.on_key_event key_event

/-- The whole drain loop of `App::render`: fold the drained batch, in order,
into the state (`for event in evt.try_iter() { match event ... }`). -/
def processEvents (s : App) (events : List Event) : App :=
  events.foldl applyEvent s

end App

/-- What one tick paints, when anything is painted: a bordered block titled
by `title` containing a paragraph `content`. -/
structure RenderedPanel where
  title : String
  bordersAll : Bool
  content : String
deriving DecidableEq

namespace App

/-- `App::render_memory` (src/main.rs lines 102-111): a block titled
"Memory Info" with all borders, holding `mem.to_string()` (`u64`'s decimal
representation, i.e. `toString` on `Nat`). -/
def render_memory (mem : Nat) : RenderedPanel :=
  { title := "Memory Info", bordersAll := true, content := toString mem }

/-- The paint step at the bottom of `App::render` (src/main.rs lines 92-100):
after the drain, if `latest_mem` is set, paint `render_memory` into the single
full-area layout region; otherwise paint nothing. -/
def paintFrame (s : App) : Option RenderedPanel :=
  match s.latest_mem with
  | some mem => some (render_memory mem)
  | none => none

/-- `App::render` as a whole: drain the batch into the state, then paint. -/
def render (s : App) (events : List Event) : App × Option RenderedPanel :=
  let s' := s.processEvents events
  (s', s'.paintFrame)

/-- The `while self.running` loop of `App::run` (src/main.rs lines 75-82),
with the channel's successive drain batches given as a list: before each
tick the flag is tested; a tick folds its batch (painting does not change
state) and the loop continues. -/
def runLoop : App → List (List Event) → App
  | s, [] => s
  | s, batch :: rest =>
    if s.running then runLoop (s.processEvents batch) rest else s

/-- `App::run`: the method first executes `self.running = true`, then enters
the while loop. -/
def run (s : App) (batches : List (List Event)) : App :=
  runLoop { s with running := true } batches

end App

/-- Result of a channel send, as seen by a producer (`Result<(), SendError>`):
`ok`, or `err` when the consumer end has been dropped. -/
inductive SendResult where
  | ok : SendResult
  | err : SendResult
deriving DecidableEq

/-- Observable steps of the sampler thread, in execution order. -/
inductive SamplerAction where
  | refreshAndRead : Nat → SamplerAction
  | emitSample : Nat → SamplerAction
  | sleep500 : SamplerAction
  | exitLoop : SamplerAction
deriving DecidableEq

/-- The memory sampler, `handle_input_events` (src/main.rs lines 40-50; the
name is the source's, it is the metric sampler despite it). Its interaction
with the environment is a list of cycles, each giving the free-memory reading
`sys.free_memory()` returns and the result of the subsequent send. Each
cycle refreshes and reads memory, sends it as `Event::Memory`; on send error
it breaks out of the loop, otherwise it sleeps 500 ms and repeats. An empty
remaining list means the thread is still running (the loop has no other
exit). -/
def handle_input_events : List (Nat × SendResult) → List SamplerAction
  | [] => []
  | (m, r) :: rest =>
    SamplerAction.refreshAndRead m :: SamplerAction.emitSample m ::
      match r with
      | SendResult.err => [SamplerAction.exitLoop]
      | SendResult.ok => SamplerAction.sleep500 :: handle_input_events rest

/-- The trace of one send-succeeding sampler cycle: refresh-and-read the
memory, emit it, and only then sleep. -/
def okCycle (m : Nat) : List SamplerAction :=
  [SamplerAction.refreshAndRead m, SamplerAction.emitSample m,
    SamplerAction.sleep500]

/-- A raw terminal event as returned by the blocking `crossterm::event::read()`
call: either a key event or some other terminal event (resize, mouse, ...). -/
inductive TermEvent where
  | key : KeyEvent → TermEvent
  | other : TermEvent
deriving DecidableEq

/-- How the input listener thread ends. -/
inductive ListenerOutcome where
  | blocked : ListenerOutcome
  | finished : List Event → ListenerOutcome
  | panicked : List Event → ListenerOutcome
deriving DecidableEq

/-- The input listener, `handle_key_events` (src/main.rs lines 34-38).
`input` is the stream of terminal events that will become available;
`send` is the result the channel send would return. The function performs a
single blocking read: with no input it stays blocked; if the first event is a
key event it sends it wrapped as `Event::Input` with `.unwrap()` — panicking
on a send error — and the function then returns; a non-key first event falls
through the `if let` and the function returns at once. The rest of `input`
is never read. -/
def handle_key_events (input : List TermEvent) (send : SendResult) :
    ListenerOutcome :=
  match input with
  | [] => ListenerOutcome.blocked
  | TermEvent.key k :: _ =>
    match send with
    | SendResult.ok => ListenerOutcome.finished [Event.Input k]
    | SendResult.err => ListenerOutcome.panicked []
  | TermEvent.other :: _ => ListenerOutcome.finished []

/-- The value of the last `Memory` event of a batch, if any. -/
def lastSample : List Event → Option Nat
  | [] => none
  | e :: rest =>
    match lastSample rest with
    | some v => some v
    | none =>
      match e with
      | Event.Memory m => some m
      | Event.Input _ => none

/-- Characterization of the quit predicate: only the key code is inspected,
and exactly `Esc` and lowercase `Char 'q'` trigger `quit`. -/
theorem App.on_key_event_eq (s : App) (k : KeyEvent) :
    App.on_key_event s k =
      if k.code = KeyCode.Esc ∨ k.code = KeyCode.Char 'q' then s.quit else s := by
  obtain ⟨code, m⟩ := k
  cases code with
  | Esc => simp [App.on_key_event]
  | Char c =>
    by_cases h : c = 'q'
    · subst h; simp [App.on_key_event]
    · simp [App.on_key_event, h]
  | Enter => simp [App.on_key_event]
  | Backspace => simp [App.on_key_event]
  | Tab => simp [App.on_key_event]
  | Left => simp [App.on_key_event]
  | Right => simp [App.on_key_event]
  | Up => simp [App.on_key_event]
  | Down => simp [App.on_key_event]
  | F n => simp [App.on_key_event]
  | Null => simp [App.on_key_event]

/-- Handling a key event never touches the stored metric. -/
theorem App.on_key_event_latest_mem (s : App) (k : KeyEvent) :
    (s.on_key_event k).latest_mem = s.latest_mem := by
  rw [App.on_key_event_eq]
  split <;> rfl

/-- Quitting an already stopped state is a no-op. -/
theorem App.quit_stopped (s : App) (h : s.running = false) : s.quit = s := by
  obtain ⟨r, lm⟩ := s
  have hr : r = false := h
  subst hr
  rfl

/-- Folding one event never turns the running flag back on. -/
theorem App.applyEvent_running_false (s : App) (e : Event) (h : s.running = false) :
    (s.applyEvent e).running = false := by
  cases e with
  | Memory m => simpa [App.applyEvent] using h
  | Input k =>
    rw [show s.applyEvent (Event.Input k) = s.on_key_event k from rfl,
      App.on_key_event_eq]
    split
    · rfl
    · exact h

/-- Folding a whole batch never turns the running flag back on. -/
theorem App.processEvents_running_false (s : App) (es : List Event)
    (h : s.running = false) : (s.processEvents es).running = false := by
  induction es generalizing s with
  | nil => exact h
  | cons e rest ih =>
    exact ih (s.applyEvent e) (App.applyEvent_running_false s e h)

/-- After folding a batch, the stored metric is the batch's last sample,
or the prior value when the batch holds no sample. -/
theorem App.processEvents_latest_mem (s : App) (es : List Event) :
    (s.processEvents es).latest_mem =
      match lastSample es with
      | some v => some v
      | none => s.latest_mem := by
  induction es generalizing s with
  | nil => rfl
  | cons e rest ih =>
    rw [show s.processEvents (e :: rest) = (s.applyEvent e).processEvents rest
      from rfl, ih]
    cases h' : lastSample rest with
    | some v => simp [lastSample, h']
    | none =>
      cases e with
      | Memory m => simp [lastSample, h', App.applyEvent]
      | Input k =>
        simp [lastSample, h', App.applyEvent, App.on_key_event_latest_mem]

/-- The sampler's loop exits exactly when some send fails. -/
theorem sampler_exit_iff (ps : List (Nat × SendResult)) :
    SamplerAction.exitLoop ∈ handle_input_events ps ↔
      SendResult.err ∈ ps.map Prod.snd := by
  induction ps with
  | nil => simp [handle_input_events]
  | cons p rest ih =>
    obtain ⟨m, r⟩ := p
    cases r with
    | ok => simp [handle_input_events, ih]
    | err => simp [handle_input_events]

/-- While every send succeeds, the sampler's trace is one read-emit-sleep
cycle per reading. -/
theorem sampler_all_ok (ms : List Nat) :
    handle_input_events (ms.map fun mem => (mem, SendResult.ok)) =
      (ms.map okCycle).flatten := by
  induction ms with
  | nil => rfl
  | cons m rest ih => simp [handle_input_events, okCycle, ih]

/-- Claim C1: for every key event folded by the state machine, Escape (with
any modifier set) and lowercase 'q' set running to false, uppercase 'Q' does
not (the state is unchanged), and any other key leaves the whole state
unchanged. -/
theorem quit_keys_exact (s : App) (m : KeyModifiers) :
    (App.on_key_event s ⟨KeyCode.Esc, m⟩).running = false ∧
    (App.on_key_event s ⟨KeyCode.Char 'q', m⟩).running = false ∧
    App.on_key_event s ⟨KeyCode.Char 'Q', m⟩ = s ∧
    (∀ k : KeyEvent, k.code ≠ KeyCode.Esc → k.code ≠ KeyCode.Char 'q' →
      App.on_key_event s k = s) := by
  refine ⟨rfl, rfl, ?_, ?_⟩
  · rw [App.on_key_event_eq]
    refine if_neg ?_
    show ¬(KeyCode.Char 'Q' = KeyCode.Esc ∨ KeyCode.Char 'Q' = KeyCode.Char 'q')
    decide
  · intro k h1 h2
    rw [App.on_key_event_eq]
    exact if_neg (fun h => h.elim h1 h2)

/-- Witness for C1 at a concrete input: the Enter key leaves the initial
state unchanged. -/
theorem quit_keys_exact_witness :
    App.on_key_event { running := true, latest_mem := none }
      ⟨KeyCode.Enter, noMods⟩ = { running := true, latest_mem := none } :=
  (quit_keys_exact { running := true, latest_mem := none } noMods).2.2.2
    ⟨KeyCode.Enter, noMods⟩ (by decide) (by decide)

/-- Claim C2: folding a drained batch leaves latestMetric equal to the last
MetricSample of the batch (last-write-wins), or its prior value when the
batch has no sample; in particular the batch [Memory 5, Memory 9] yields
latestMetric = 9. -/
theorem latest_metric_last_write_wins (s : App) (batch : List Event) :
    ((s.processEvents batch).latest_mem =
      match lastSample batch with
      | some v => some v
      | none => s.latest_mem) ∧
    App.processEvents App.new [Event.Memory 5, Event.Memory 9] =
      { running := true, latest_mem := some 9 } :=
  ⟨App.processEvents_latest_mem s batch, by decide⟩

/-- Counterexample to claim C3 as stated: after an Escape key stops the
state machine, a Memory event drained in the same batch is still processed
and changes the state (latestMetric becomes 5), so the ApplicationState is
not left unchanged. -/
theorem stopped_still_updates_metric_cex :
    (App.processEvents App.new [Event.Input ⟨KeyCode.Esc, noMods⟩]).running
        = false ∧
    App.processEvents App.new
        [Event.Input ⟨KeyCode.Esc, noMods⟩, Event.Memory 5] ≠
      App.processEvents App.new [Event.Input ⟨KeyCode.Esc, noMods⟩] := by
  decide

/-- Claim C3 as amended: once running is false it stays false under any
further folded events, an Input event leaves the stopped state literally
unchanged, and the run loop exits at once without draining further batches;
however a MetricSample event later in the same drain batch is still
processed and still overwrites latestMetric. -/
theorem stopped_running_stays_false (s : App) (es : List Event)
    (bs : List (List Event)) (h : s.running = false) :
    (s.processEvents es).running = false ∧
    (∀ k, s.applyEvent (Event.Input k) = s) ∧
    App.runLoop s bs = s := by
  refine ⟨App.processEvents_running_false s es h, ?_, ?_⟩
  · intro k
    rw [show s.applyEvent (Event.Input k) = s.on_key_event k from rfl,
      App.on_key_event_eq]
    split
    · exact App.quit_stopped s h
    · rfl
  · cases bs with
    | nil => rfl
    | cons b rest => simp [App.runLoop, h]

/-- Witness for the amended C3 at a concrete input: from a stopped state,
folding a Memory event keeps running false. -/
theorem stopped_running_stays_false_witness :
    (App.processEvents { running := false, latest_mem := none }
      [Event.Memory 5]).running = false :=
  (stopped_running_stays_false { running := false, latest_mem := none }
    [Event.Memory 5] [] rfl).1

/-- Counterexample to claim C4 as stated: when the consumer is gone, the
input listener's send fails and the thread panics (the send result is
unwrapped), rather than exiting silently and successfully. -/
theorem listener_send_failure_panics_cex :
    handle_key_events [TermEvent.key ⟨KeyCode.Char 'q', noMods⟩]
      SendResult.err = ListenerOutcome.panicked [] := rfl

/-- Claim C4 as amended: the metric sampler treats a failed send as the
expected shutdown signal and breaks out of its loop silently (no panic,
no error report), but the input listener unwraps its send result, so a
failed send makes that thread panic instead of exiting silently. -/
theorem send_failure_outcomes (m : Nat) (ps : List (Nat × SendResult))
    (k : KeyEvent) :
    handle_input_events ((m, SendResult.err) :: ps) =
      [SamplerAction.refreshAndRead m, SamplerAction.emitSample m,
        SamplerAction.exitLoop] ∧
    handle_key_events [TermEvent.key k] SendResult.err =
      ListenerOutcome.panicked [] :=
  ⟨rfl, rfl⟩

/-- Claim C5, evaluated at the failing input: with two keypresses available
('a' then 'q'), the input listener forwards only the first one and its
thread finishes — it does not loop back into the blocking read, so the
second keypress is never forwarded into the channel. -/
theorem listener_single_shot :
    handle_key_events
        [TermEvent.key ⟨KeyCode.Char 'a', noMods⟩,
          TermEvent.key ⟨KeyCode.Char 'q', noMods⟩]
        SendResult.ok =
      ListenerOutcome.finished [Event.Input ⟨KeyCode.Char 'a', noMods⟩] := rfl

/-- Claim C6: running starts true, folding an event never turns it back on
once false, a Memory event never changes it at all, and a stopped state
makes the run loop exit immediately. -/
theorem running_monotonic :
    App.new.running = true ∧
    (∀ s e, s.running = false → (App.applyEvent s e).running = false) ∧
    (∀ s m, (App.applyEvent s (Event.Memory m)).running = s.running) ∧
    (∀ s bs, s.running = false → App.runLoop s bs = s) := by
  refine ⟨rfl, fun s e h => App.applyEvent_running_false s e h,
    fun s m => rfl, ?_⟩
  intro s bs h
  cases bs with
  | nil => rfl
  | cons b rest => simp [App.runLoop, h]

/-- Witness for C6 at a concrete input: folding a Memory event into a
stopped state keeps running false. -/
theorem running_monotonic_witness :
    (App.applyEvent { running := false, latest_mem := none }
      (Event.Memory 7)).running = false :=
  running_monotonic.2.1 { running := false, latest_mem := none }
    (Event.Memory 7) rfl

/-- Claim C7: with latestMetric unset the paint step paints nothing; with
latestMetric = v it paints one bordered panel titled "Memory Info" whose
content is exactly the decimal representation of v; in particular 1048576
is painted as the string "1048576". The paint step is a total function of
the state. -/
theorem render_paints_latest_metric (s : App) :
    (s.latest_mem = none → s.paintFrame = none) ∧
    (∀ v, s.latest_mem = some v →
      s.paintFrame = some ⟨"Memory Info", true, toString v⟩) ∧
    App.paintFrame { running := true, latest_mem := some 1048576 } =
      some ⟨"Memory Info", true, "1048576"⟩ := by
  refine ⟨?_, ?_, rfl⟩
  · intro h
    simp [App.paintFrame, h]
  · intro v h
    simp [App.paintFrame, App.render_memory, h]

/-- Witness for C7 at a concrete input: the initial state (no sample yet)
paints nothing. -/
theorem render_paints_latest_metric_witness :
    App.paintFrame { running := true, latest_mem := none } = none :=
  (render_paints_latest_metric { running := true, latest_mem := none }).1 rfl

/-- Claim C8: the sampler's loop exits exactly when a send fails; while all
sends succeed its trace is one read-then-emit-then-sleep cycle per reading
(the 500 ms suspension comes only after the emit), and on the first failed
send it exits right after the emit, without sleeping and ignoring any
further cycles. -/
theorem sampler_cycle_and_termination (ps : List (Nat × SendResult))
    (ms : List Nat) (m : Nat) :
    (SamplerAction.exitLoop ∈ handle_input_events ps ↔
      SendResult.err ∈ ps.map Prod.snd) ∧
    handle_input_events (ms.map fun mem => (mem, SendResult.ok)) =
      (ms.map okCycle).flatten ∧
    handle_input_events ((m, SendResult.err) :: ps) =
      [SamplerAction.refreshAndRead m, SamplerAction.emitSample m,
        SamplerAction.exitLoop] :=
  ⟨sampler_exit_iff ps, sampler_all_ok ms, rfl⟩

/-- Claim C9: once latestMetric is Some it stays Some under any batch of
folded events; it is only ever overwritten, never reset to None. -/
theorem latest_mem_never_reset (s : App) (es : List Event) (v : Nat)
    (h : s.latest_mem = some v) :
    ∃ w, (s.processEvents es).latest_mem = some w := by
  rw [App.processEvents_latest_mem]
  cases h' : lastSample es with
  | some u => exact ⟨u, rfl⟩
  | none => exact ⟨v, h⟩

/-- Witness for C9 at a concrete input: a state holding the sample 3 still
holds a sample after folding an Escape key event. -/
theorem latest_mem_never_reset_witness :
    ∃ w, (App.processEvents { running := true, latest_mem := some 3 }
      [Event.Input ⟨KeyCode.Esc, noMods⟩]).latest_mem = some w :=
  latest_mem_never_reset { running := true, latest_mem := some 3 }
    [Event.Input ⟨KeyCode.Esc, noMods⟩] 3 rfl

/-- Claim C10: the quit predicate inspects only the key code — two key
events with the same code and different modifier sets produce the same
state — and in particular 'q' with any modifier set, and Escape with
Control held, set running to false. -/
theorem quit_predicate_ignores_modifiers (s : App) (m₁ m₂ : KeyModifiers)
    (c : KeyCode) :
    App.on_key_event s ⟨c, m₁⟩ = App.on_key_event s ⟨c, m₂⟩ ∧
    (App.on_key_event s ⟨KeyCode.Char 'q', m₁⟩).running = false ∧
    (App.on_key_event s ⟨KeyCode.Esc, ctrlMod⟩).running = false := by
  refine ⟨?_, rfl, rfl⟩
  rw [App.on_key_event_eq, App.on_key_event_eq]
